import Mathlib

/-!
# konaito/discord_logs: the webhook relay of `main.go`

A shallow embedding of `loadWebhookMap`, `sendToDiscord` and `handleRequest`.

Conventions of the embedding.

* A JSON text is represented by the value it denotes (`JValue`); byte
  sequences handed to `encoding/json` are represented by what its scanner
  makes of them (`Bytes`): a syntax error, or the value read.
* Go strings that come out of `encoding/json` are valid UTF-8, so they are
  Lean `String`s.
* The file system and the remote webhook are an explicit `World`; every
  call that leaves the process is recorded as an `Effect`, in order.
* A response body is recorded as the line or JSON value written; on the
  wire `fmt.Fprintln` and `json.Encoder.Encode` both end it with a newline.
-/

namespace DiscordLogs

/-! ## JSON values and `encoding/json` -/

/-- JSON values. A number keeps its literal. -/
inductive JValue where
  | null : JValue
  | bool (b : Bool) : JValue
  | number (literal : String) : JValue
  | string (s : String) : JValue
  | array (elements : List JValue) : JValue
  | object (members : List (String × JValue)) : JValue

/-- Bytes as the scanner of `encoding/json` sees them: rejected with a
syntax (or read) error, or holding a JSON value. For `json.Unmarshal` the
value is the whole input; for `json.Decoder.Decode` it is the first value
of the stream (an empty stream is rejected with `EOF`). -/
inductive Bytes where
  | malformed (syntaxError : String) : Bytes
  | document (value : JValue) : Bytes

/-- Errors of `encoding/json`: `*json.SyntaxError` (by its message) and
`*json.UnmarshalTypeError` (by its `Value` field, the description of the
JSON value that could not be stored). -/
inductive JSONError where
  | syntaxError (msg : String) : JSONError
  | unmarshalTypeError (value : String) : JSONError

/-- The `Value` field of an `UnmarshalTypeError`: how the decoder names the
JSON value it could not store. -/
def JValue.describe : JValue → String
  | .null => "null"
  | .bool _ => "bool"
  | .number _ => "number"
  | .string _ => "string"
  | .array _ => "array"
  | .object _ => "object"

/-- The decoder keeps the first error it meets and goes on (`d.saveError`). -/
def saveError (saved : Option JSONError) (err : JSONError) : Option JSONError :=
  match saved with
  | some e => some e
  | none => some err

/-- Case folding of one rune of an object key, as far as it can reach an
ASCII field name: ASCII letters fold to upper case, and the Kelvin sign
(U+212A) and the long s (U+017F) fold to `K` and `S`. -/
def foldRune (c : Char) : Char :=
  if c = Char.ofNat 0x212A then 'K'
  else if c = Char.ofNat 0x017F then 'S'
  else c.toUpper

/-- The folded form of a name. -/
def foldName (s : String) : List Char :=
  s.data.map foldRune

/-- Whether object key `key` selects the struct field whose JSON name is
`name`: an exact match, or else a case-insensitive one. -/
def matchField (name key : String) : Bool :=
  key == name || foldName key == foldName name

/-- Storing a JSON value into a Go `string` field holding `cur`
(`literalStore` and friends): `null` leaves the field alone, a string is
stored, anything else is an `UnmarshalTypeError`. -/
def storeString (v : JValue) (cur : String) (saved : Option JSONError) :
    String × Option JSONError :=
  match v with
  | .null => (cur, saved)
  | .string s => (s, saved)
  | v => (cur, saveError saved (.unmarshalTypeError v.describe))

/-! ## The data model of `main.go` -/

/-- Go: `type WebhookData struct { WebhooksURL string }`, JSON name `webhooks_url`. -/
structure WebhookData where
  WebhooksURL : String
deriving DecidableEq

/-- Go: `type DiscordMessage struct { Content string }`, JSON name `content`. -/
structure DiscordMessage where
  Content : String
deriving DecidableEq

/-- Go: the anonymous struct `reqData` of `handleRequest`, JSON names `code`
and `message`. -/
structure ReqData where
  Code : String
  Message : String
deriving DecidableEq

/-- Entries of a Go `map[string]WebhookData`, kept in increasing key order
(the order in which `encoding/json` writes a map). -/
abbrev Entries := List (String × WebhookData)

/-- Go: `map[string]WebhookData`; `none` is the nil map. -/
abbrev WebhookMap := Option Entries

/-- Go: `m[k] = v` on the entries of a map. -/
def Entries.assign (k : String) (v : WebhookData) : Entries → Entries
  | [] => [(k, v)]
  | (k', v') :: rest =>
    if k = k' then (k, v) :: rest
    else if k < k' then (k, v) :: (k', v') :: rest
    else (k', v') :: Entries.assign k v rest

/-- Go: `v, ok := m[k]` on the entries of a map. -/
def Entries.index (k : String) : Entries → Option WebhookData
  | [] => none
  | (k', v') :: rest => if k = k' then some v' else Entries.index k rest

/-- Go: `v, exists := m[k]`; indexing a nil map finds nothing. -/
def WebhookMap.index (m : WebhookMap) (k : String) : Option WebhookData :=
  match m with
  | none => none
  | some es => es.index k

/-! ## Typed decoding (`json.Unmarshal`, `json.Decoder.Decode`) -/

/-- One member of a JSON object decoded into a `WebhookData`: a key that
selects `webhooks_url` stores into the field, any other key is skipped. -/
def decodeWebhookDataMember (st : WebhookData × Option JSONError)
    (kv : String × JValue) : WebhookData × Option JSONError :=
  if matchField "webhooks_url" kv.1 then
    let r := storeString kv.2 st.1.WebhooksURL st.2
    ({ WebhooksURL := r.1 }, r.2)
  else st

/-- A JSON value decoded into a fresh (zero) `WebhookData`: `null` is a
no-op, an object is decoded member by member, anything else is an
`UnmarshalTypeError`. -/
def decodeWebhookData (v : JValue) (saved : Option JSONError) :
    WebhookData × Option JSONError :=
  match v with
  | .null => ({ WebhooksURL := "" }, saved)
  | .object members => members.foldl decodeWebhookDataMember ({ WebhooksURL := "" }, saved)
  | v => ({ WebhooksURL := "" }, saveError saved (.unmarshalTypeError v.describe))

/-- One member of the top-level object decoded into the map: the element is
decoded into a zero `WebhookData` and assigned under the key. -/
def decodeWebhookMapMember (st : Entries × Option JSONError)
    (kv : String × JValue) : Entries × Option JSONError :=
  let r := decodeWebhookData kv.2 st.2
  (st.1.assign kv.1 r.1, r.2)

/-- A JSON value decoded into a nil `map[string]WebhookData`: `null` leaves
the map nil, an object makes a map and fills it, anything else is an
`UnmarshalTypeError`. -/
def decodeWebhookMap (v : JValue) : WebhookMap × Option JSONError :=
  match v with
  | .null => (none, none)
  | .object members =>
    let r := members.foldl decodeWebhookMapMember ([], none)
    (some r.1, r.2)
  | v => (none, some (.unmarshalTypeError v.describe))

/-- Go: `json.Unmarshal(file, &webhookMap)` on a nil map. -/
def jsonUnmarshalWebhookMap (file : Bytes) : Except JSONError WebhookMap :=
  match file with
  | .malformed e => .error (.syntaxError e)
  | .document v =>
    match decodeWebhookMap v with
    | (m, none) => .ok m
    | (_, some e) => .error e

/-- One member of a JSON object decoded into `reqData`. -/
def decodeReqDataMember (st : ReqData × Option JSONError)
    (kv : String × JValue) : ReqData × Option JSONError :=
  if matchField "code" kv.1 then
    let r := storeString kv.2 st.1.Code st.2
    ({ st.1 with Code := r.1 }, r.2)
  else if matchField "message" kv.1 then
    let r := storeString kv.2 st.1.Message st.2
    ({ st.1 with Message := r.1 }, r.2)
  else st

/-- A JSON value decoded into the zero `reqData`. -/
def decodeReqData (v : JValue) : ReqData × Option JSONError :=
  match v with
  | .null => ({ Code := "", Message := "" }, none)
  | .object members => members.foldl decodeReqDataMember ({ Code := "", Message := "" }, none)
  | v => ({ Code := "", Message := "" }, some (.unmarshalTypeError v.describe))

/-- Go: `json.NewDecoder(r.Body).Decode(&reqData)`. -/
def jsonDecodeReqData (body : Bytes) : Except JSONError ReqData :=
  match body with
  | .malformed e => .error (.syntaxError e)
  | .document v =>
    match decodeReqData v with
    | (d, none) => .ok d
    | (_, some e) => .error e

/-- The JSON value of a `DiscordMessage`: the object with the one member
`content`. -/
def DiscordMessage.toJSON (msg : DiscordMessage) : JValue :=
  .object [("content", .string msg.Content)]

/-- Go: `json.Marshal(msg)` for a `DiscordMessage`; it has no failing case. -/
def jsonMarshalDiscordMessage (msg : DiscordMessage) : Except String JValue :=
  .ok msg.toJSON

/-- The JSON value of a `WebhookData`: the object with the one member
`webhooks_url`. -/
def WebhookData.toJSON (d : WebhookData) : JValue :=
  .object [("webhooks_url", .string d.WebhooksURL)]

/-- The JSON value of a `map[string]WebhookData`: `null` for the nil map,
else the object of its entries in key order. -/
def WebhookMap.toJSON : WebhookMap → JValue
  | none => .null
  | some es => .object (es.map fun kv => (kv.1, kv.2.toJSON))

/-- Go: `json.NewEncoder(w).Encode(webhookMap)`, as far as the value
written goes; encoding such a map has no failing case. -/
def jsonEncodeWebhookMap (m : WebhookMap) : Except String JValue :=
  .ok m.toJSON

/-! ## The outside world and what a request does to it -/

/-- The environment of one request: the file system and the HTTP client. -/
structure World where
  /-- Go: `ioutil.ReadFile(path)`: the read error's message, or the bytes. -/
  readFile : String → Except String Bytes
  /-- Go: `http.Post(url, contentType, body)`: the transport error's
  message, or the status code of the response. -/
  httpPost : String → String → JValue → Except String Nat

/-- Go: the errors `loadWebhookMap` returns, each wrapping its cause:
`failed to read webhook map file: %w` and `failed to unmarshal webhook map: %w`. -/
inductive LoadError where
  | read (cause : String) : LoadError
  | unmarshal (cause : JSONError) : LoadError

/-- What a request does outside its own memory, in program order. -/
inductive Effect where
  /-- A call of `ioutil.ReadFile`. -/
  | readFile (path : String) : Effect
  /-- A call of `http.Post`: one outbound delivery. -/
  | httpPost (url : String) (contentType : String) (body : JValue) : Effect
  /-- Go: `log.Println("Error loading webhook map:", err)`. -/
  | logLoadError (err : LoadError) : Effect
  /-- Go: `log.Println("Error encoding webhook map:", err)`. -/
  | logEncodeError (err : String) : Effect

/-- The body a handler wrote. -/
inductive Body where
  /-- Go: `fmt.Fprintln(w, text)`. -/
  | line (text : String) : Body
  /-- Go: `json.NewEncoder(w).Encode(v)`. -/
  | json (value : JValue) : Body

/-- The response a handler produced: status, the headers it set, body. -/
structure Response where
  statusCode : Nat
  header : List (String × String)
  body : Body

/-- Go: `*http.Request`, as far as `handleRequest` reads it. -/
structure Request where
  Method : String
  Body : Bytes

/-- Go: `http.Error(w, msg, code)`. -/
def httpError (msg : String) (code : Nat) : Response :=
  { statusCode := code
    header := [("Content-Type", "text/plain; charset=utf-8"), ("X-Content-Type-Options", "nosniff")]
    body := .line msg }

/-! ## `main.go` -/

/-- Go: `loadWebhookMap(filePath)`. -/
def loadWebhookMap (w : World) (filePath : String) :
    Except LoadError WebhookMap × List Effect :=
  match w.readFile filePath with
  | .error err => (.error (.read err), [.readFile filePath])
  | .ok file =>
    match jsonUnmarshalWebhookMap file with
    | .error err => (.error (.unmarshal err), [.readFile filePath])
    | .ok webhookMap => (.ok webhookMap, [.readFile filePath])

/-- Go: `sendToDiscord(webhookURL, message)`; the error is given by its text. -/
def sendToDiscord (w : World) (webhookURL : String) (message : String) :
    Except String Unit × List Effect :=
  let msg : DiscordMessage := { Content := message }
  match jsonMarshalDiscordMessage msg with
  | .error err => (.error ("failed to marshal message: " ++ err), [])
  | .ok jsonMsg =>
    match w.httpPost webhookURL "application/json" jsonMsg with
    | .error err =>
      (.error ("failed to send message to Discord: " ++ err),
        [.httpPost webhookURL "application/json" jsonMsg])
    | .ok statusCode =>
      if statusCode ≠ 200 ∧ statusCode ≠ 204 then
        (.error ("failed to send message, status code: " ++ toString statusCode),
          [.httpPost webhookURL "application/json" jsonMsg])
      else
        (.ok (), [.httpPost webhookURL "application/json" jsonMsg])

/-- Go: `handleRequest(w, r)`: the response written and the effects performed. -/
def handleRequest (w : World) (r : Request) : Response × List Effect :=
  if r.Method = "POST" then
    match jsonDecodeReqData r.Body with
    | .error _ => (httpError "Invalid request body" 400, [])
    | .ok reqData =>
      match loadWebhookMap w "webhook_map.json" with
      | (.error err, fx) =>
        (httpError "Failed to load webhook map" 500, fx ++ [.logLoadError err])
      | (.ok webhookMap, fx) =>
        match webhookMap.index reqData.Code with
        | none => (httpError "Invalid code" 400, fx)
        | some webhookData =>
          match sendToDiscord w webhookData.WebhooksURL reqData.Message with
          | (.error err, fx') => (httpError err 500, fx ++ fx')
          | (.ok _, fx') =>
            ({ statusCode := 200, header := [], body := .line "Message sent successfully" },
              fx ++ fx')
  else if r.Method = "GET" then
    match loadWebhookMap w "webhook_map.json" with
    | (.error err, fx) =>
      (httpError "Failed to load webhook map" 500, fx ++ [.logLoadError err])
    | (.ok webhookMap, fx) =>
      match jsonEncodeWebhookMap webhookMap with
      | .error err =>
        (httpError "Failed to encode webhook map" 500, fx ++ [.logEncodeError err])
      | .ok v =>
        ({ statusCode := 200, header := [("Content-Type", "application/json")], body := .json v },
          fx)
  else
    (httpError "Method not allowed" 405, [])

/-- The outbound deliveries among the effects: destination, content type
and envelope of every `http.Post`. -/
def deliveries : List Effect → List (String × String × JValue)
  | [] => []
  | .httpPost url ct body :: rest => (url, ct, body) :: deliveries rest
  | _ :: rest => deliveries rest

/-! ## Predicates on JSON values

`expectedShape` follows the words of the spec; `malformedBody`,
`acceptedElement` and `acceptedMapping` say, without running the decoder,
which inputs it rejects. -/

/-- A JSON string or `null`. -/
def JValue.isStringOrNull : JValue → Bool
  | .null => true
  | .string _ => true
  | _ => false

/-- The request bodies that are not decodable as `{code: string, message: string}`:
invalid JSON syntax, a JSON value that is neither an object nor `null`, or
an object with a member named `code` or `message` (in any letter case)
whose value is neither a string nor `null`. -/
def malformedBody : Bytes → Bool
  | .malformed _ => true
  | .document .null => false
  | .document (.object members) =>
    members.any fun kv =>
      (matchField "code" kv.1 || matchField "message" kv.1) && !kv.2.isStringOrNull
  | .document _ => true

/-- A JSON object with a string member called `name`. -/
def JValue.hasStringMember (name : String) : JValue → Bool
  | .object fields => fields.any fun f =>
      f.1 == name && (match f.2 with
        | .string _ => true
        | _ => false)
  | _ => false

/-- The shape the spec expects of the mapping file: a JSON object whose
values are objects with a string `webhooks_url` field. -/
def expectedShape : JValue → Bool
  | .object members => members.all fun kv => kv.2.hasStringMember "webhooks_url"
  | _ => false

/-- The values `json.Unmarshal` stores into a `WebhookData` without error:
`null`, or an object in which every member named `webhooks_url` (in any
letter case) is a string or `null`. -/
def acceptedElement : JValue → Bool
  | .null => true
  | .object fields => fields.all fun f => !matchField "webhooks_url" f.1 || f.2.isStringOrNull
  | _ => false

/-- The values `json.Unmarshal` stores into a `map[string]WebhookData`
without error: `null`, or an object whose values are all accepted as
`WebhookData`. -/
def acceptedMapping : JValue → Bool
  | .null => true
  | .object members => members.all fun kv => acceptedElement kv.2
  | _ => false

/-- The request `GET`. -/
def getRequest : Request :=
  { Method := "GET", Body := .malformed "EOF" }

/-- The keys of the entries are strictly increasing. -/
def Entries.Sorted (es : Entries) : Prop :=
  List.Pairwise (fun a b : String => a < b) (es.map Prod.fst)

/-! ## What a mapping file says, read off its JSON value

These follow the JSON text, not the decoder: the last member under a code is
the one a reader of the file takes to be in force, and the URL of an entry
is the last string given for `webhooks_url`. -/

/-- The string one member of an entry gives for `webhooks_url` (in any
letter case), if it gives one. -/
def memberURL (kv : String × JValue) : Option String :=
  if matchField "webhooks_url" kv.1 then
    match kv.2 with
    | .string s => some s
    | _ => none
  else none

/-- The last string given for `webhooks_url` among the members of an entry. -/
def lastURL : List (String × JValue) → Option String
  | [] => none
  | kv :: rest =>
    match lastURL rest with
    | some s => some s
    | none => memberURL kv

/-- The URL an entry of the mapping file gives: the last string given for
`webhooks_url`, and the empty URL when the entry is `null` or gives none. -/
def entryURL : JValue → String
  | .object fields => (lastURL fields).getD ""
  | _ => ""

/-- The last member of a JSON object under the key `code`. -/
def lastEntry (code : String) : List (String × JValue) → Option JValue
  | [] => none
  | kv :: rest =>
    match lastEntry code rest with
    | some x => some x
    | none => if code = kv.1 then some kv.2 else none

/-! ## Concrete scenarios -/

/-- A world in which `webhook_map.json` reads as `file` (no other file
exists) and every outbound POST has the outcome `remote`. -/
def worldOf (file : Except String Bytes) (remote : Except String Nat) : World :=
  { readFile := fun path =>
      if path = "webhook_map.json" then file else .error "no such file or directory"
    httpPost := fun _ _ _ => remote }

/-- The mapping file `{"team-a": {"webhooks_url": "https://hooks.example/abc"}}`. -/
def teamFile : Bytes :=
  .document (.object [("team-a", .object [("webhooks_url", .string "https://hooks.example/abc")])])

/-- The request `POST {"code": code, "message": message}`. -/
def postOf (code message : String) : Request :=
  { Method := "POST"
    Body := .document (.object [("code", .string code), ("message", .string message)]) }

/-- The mapping file `{"": {"webhooks_url": "https://hooks.example/abc"}}`:
one entry, under the empty code. -/
def emptyCodeFile : Bytes :=
  .document (.object [("", .object [("webhooks_url", .string "https://hooks.example/abc")])])

/-- The request `POST {}`. -/
def postEmptyObject : Request :=
  { Method := "POST", Body := .document (.object []) }

/-- The members of
`{"team-a": {"webhooks_url": "https://hooks.example/abc"}, "team-b": null, "team-c": {}}`. -/
def threeEntries : List (String × JValue) :=
  [("team-a", .object [("webhooks_url", .string "https://hooks.example/abc")]),
   ("team-b", .null), ("team-c", .object [])]

/-- The mapping file with the members `threeEntries`. -/
def threeEntryFile : Bytes :=
  .document (.object threeEntries)

/-- The JSON value `{"team-a": {}}`. -/
def bareEntry : JValue :=
  .object [("team-a", .object [])]

/-- The JSON value `{"team-a": {"webhooks_url": ""}}`. -/
def emptyURLEntry : JValue :=
  .object [("team-a", .object [("webhooks_url", .string "")])]

/-! # Theorems -/

/-! ## Lemmas about the embedding -/

theorem loadWebhookMap_effects (w : World) (p : String) :
    (loadWebhookMap w p).2 = [Effect.readFile p] := by
  unfold loadWebhookMap
  split
  · rfl
  · split <;> rfl

theorem loadWebhookMap_eq (w : World) (p : String) (x : Except LoadError WebhookMap)
    (h : (loadWebhookMap w p).1 = x) :
    loadWebhookMap w p = (x, [Effect.readFile p]) :=
  Prod.ext h (loadWebhookMap_effects w p)

theorem sendToDiscord_effects (w : World) (url message : String) :
    (sendToDiscord w url message).2 =
      [Effect.httpPost url "application/json" (.object [("content", .string message)])] := by
  unfold sendToDiscord
  simp only [jsonMarshalDiscordMessage, DiscordMessage.toJSON]
  cases w.httpPost url "application/json" (.object [("content", .string message)]) with
  | error e => rfl
  | ok s => dsimp only; split <;> rfl

theorem sendToDiscord_ok (w : World) (url message : String) (s : Nat)
    (h : w.httpPost url "application/json" (.object [("content", .string message)]) = .ok s)
    (hs : s = 200 ∨ s = 204) :
    (sendToDiscord w url message).1 = .ok () := by
  unfold sendToDiscord
  simp only [jsonMarshalDiscordMessage, DiscordMessage.toJSON, h]
  rcases hs with rfl | rfl <;> rfl

theorem sendToDiscord_status (w : World) (url message : String) (s : Nat)
    (h : w.httpPost url "application/json" (.object [("content", .string message)]) = .ok s)
    (h200 : s ≠ 200) (h204 : s ≠ 204) :
    (sendToDiscord w url message).1 =
      .error ("failed to send message, status code: " ++ toString s) := by
  unfold sendToDiscord
  simp only [jsonMarshalDiscordMessage, DiscordMessage.toJSON, h]
  rw [if_pos ⟨h200, h204⟩]

theorem sendToDiscord_transport (w : World) (url message : String) (e : String)
    (h : w.httpPost url "application/json" (.object [("content", .string message)]) = .error e) :
    (sendToDiscord w url message).1 = .error ("failed to send message to Discord: " ++ e) := by
  unfold sendToDiscord
  simp only [jsonMarshalDiscordMessage, DiscordMessage.toJSON, h]

/-- A POST that passes decoding and loading, by what the code is mapped to. -/
theorem handleRequest_post (w : World) (r : Request) (d : ReqData) (m : WebhookMap)
    (hm : r.Method = "POST") (hb : jsonDecodeReqData r.Body = .ok d)
    (hl : (loadWebhookMap w "webhook_map.json").1 = .ok m) :
    handleRequest w r =
      match m.index d.Code with
      | none => (httpError "Invalid code" 400, [Effect.readFile "webhook_map.json"])
      | some webhookData =>
        match (sendToDiscord w webhookData.WebhooksURL d.Message).1 with
        | .error err =>
          (httpError err 500,
            [Effect.readFile "webhook_map.json",
              Effect.httpPost webhookData.WebhooksURL "application/json"
                (.object [("content", .string d.Message)])])
        | .ok _ =>
          ({ statusCode := 200, header := [], body := .line "Message sent successfully" },
            [Effect.readFile "webhook_map.json",
              Effect.httpPost webhookData.WebhooksURL "application/json"
                (.object [("content", .string d.Message)])]) := by
  unfold handleRequest
  rw [if_pos hm, hb]
  simp only [loadWebhookMap_eq w _ _ hl]
  cases m.index d.Code with
  | none => rfl
  | some wd =>
    simp only
    have h2 := sendToDiscord_effects w wd.WebhooksURL d.Message
    rcases hs : sendToDiscord w wd.WebhooksURL d.Message with ⟨res, fx⟩
    rw [hs] at h2
    simp only at h2
    subst h2
    cases res <;> rfl

/-! ## The map model: assignment, indexing, key order -/

theorem Entries.index_assign (k : String) (v : WebhookData) (es : Entries) (j : String) :
    (Entries.assign k v es).index j = if j = k then some v else es.index j := by
  induction es with
  | nil => simp [Entries.assign, Entries.index]
  | cons kv rest ih =>
    obtain ⟨k', v'⟩ := kv
    unfold Entries.assign
    by_cases h1 : k = k'
    · subst h1
      simp only [if_true, Entries.index]
      by_cases hj : j = k <;> simp [hj]
    · rw [if_neg h1]
      by_cases h2 : k < k'
      · rw [if_pos h2]
        simp only [Entries.index]
      · rw [if_neg h2]
        simp only [Entries.index, ih]
        by_cases h3 : j = k'
        · subst h3
          have : ¬ j = k := fun h => h1 h.symm
          simp [this]
        · simp [h3]

theorem Entries.keys_assign (k : String) (v : WebhookData) (es : Entries) (x : String)
    (hx : x ∈ (Entries.assign k v es).map Prod.fst) : x = k ∨ x ∈ es.map Prod.fst := by
  induction es with
  | nil => simpa [Entries.assign] using hx
  | cons kv rest ih =>
    obtain ⟨k', v'⟩ := kv
    unfold Entries.assign at hx
    by_cases h1 : k = k'
    · rw [if_pos h1] at hx
      simp only [List.map_cons, List.mem_cons] at hx ⊢
      rcases hx with hx | hx
      · exact Or.inl hx
      · exact Or.inr (Or.inr hx)
    · rw [if_neg h1] at hx
      by_cases h2 : k < k'
      · rw [if_pos h2] at hx
        simpa using hx
      · rw [if_neg h2] at hx
        simp only [List.map_cons, List.mem_cons] at hx ⊢
        rcases hx with hx | hx
        · exact Or.inr (Or.inl hx)
        · rcases ih hx with h | h
          · exact Or.inl h
          · exact Or.inr (Or.inr h)

theorem Entries.sorted_assign (k : String) (v : WebhookData) (es : Entries)
    (hs : es.Sorted) : (Entries.assign k v es).Sorted := by
  induction es with
  | nil => simp [Entries.assign, Entries.Sorted]
  | cons kv rest ih =>
    obtain ⟨k', v'⟩ := kv
    unfold Entries.Sorted at hs
    simp only [List.map_cons, List.pairwise_cons] at hs
    unfold Entries.assign
    by_cases h1 : k = k'
    · subst h1
      rw [if_pos rfl]
      unfold Entries.Sorted
      simpa using hs
    · rw [if_neg h1]
      by_cases h2 : k < k'
      · rw [if_pos h2]
        unfold Entries.Sorted
        simp only [List.map_cons, List.pairwise_cons, List.mem_cons]
        refine ⟨?_, hs.1, hs.2⟩
        rintro x (rfl | hx)
        · exact h2
        · exact lt_trans h2 (hs.1 x hx)
      · rw [if_neg h2]
        have h3 : k' < k := lt_of_le_of_ne (not_lt.mp h2) (fun h => h1 h.symm)
        unfold Entries.Sorted
        simp only [List.map_cons, List.pairwise_cons]
        refine ⟨?_, ih hs.2⟩
        intro x hx
        rcases Entries.keys_assign k v rest x hx with rfl | hx
        · exact h3
        · exact hs.1 x hx

theorem decodeWebhookMap_foldl_sorted (members : List (String × JValue))
    (st : Entries × Option JSONError) (hs : st.1.Sorted) :
    (members.foldl decodeWebhookMapMember st).1.Sorted := by
  induction members generalizing st with
  | nil => exact hs
  | cons kv rest ih =>
    rw [List.foldl_cons]
    exact ih _ (Entries.sorted_assign _ _ _ hs)

/-- The entries of a map that `loadWebhookMap` returned are in strictly
increasing key order: `json.Encoder` writes them in the order of the list. -/
theorem loadWebhookMap_sorted (w : World) (p : String) (es : Entries)
    (h : (loadWebhookMap w p).1 = .ok (some es)) : es.Sorted := by
  unfold loadWebhookMap at h
  split at h
  · cases h
  · rename_i file _
    split at h
    · cases h
    · rename_i m hm
      simp only [Except.ok.injEq] at h
      subst h
      unfold jsonUnmarshalWebhookMap at hm
      split at hm
      · cases hm
      · rename_i v
        split at hm
        · rename_i m' hd
          simp only [Except.ok.injEq] at hm
          subst hm
          unfold decodeWebhookMap at hd
          split at hd
          · cases hd
          · rename_i members
            simp only [Prod.mk.injEq, Option.some.injEq] at hd
            rw [← hd.1]
            exact decodeWebhookMap_foldl_sorted members _ (by simp [Entries.Sorted])
          · cases hd
        · cases hm

theorem Entries.index_eq_none (j : String) (es : Entries)
    (h : j ∉ es.map Prod.fst) : es.index j = none := by
  induction es with
  | nil => rfl
  | cons kv rest ih =>
    obtain ⟨k', v'⟩ := kv
    simp only [List.map_cons, List.mem_cons, not_or] at h
    simp only [Entries.index, if_neg h.1, ih h.2]

theorem Entries.mem_keys_of_index (j : String) (es : Entries) (v : WebhookData)
    (h : es.index j = some v) : j ∈ es.map Prod.fst := by
  by_contra hn
  rw [Entries.index_eq_none j es hn] at h
  cases h

/-- Two maps in key order that answer every index alike are the same list. -/
theorem Entries.ext_of_sorted (es es' : Entries) (hs : es.Sorted) (hs' : es'.Sorted)
    (h : ∀ j, es.index j = es'.index j) : es = es' := by
  induction es generalizing es' with
  | nil =>
    cases es' with
    | nil => rfl
    | cons kv' rest' =>
      have := h kv'.1
      simp [Entries.index] at this
  | cons kv rest ih =>
    obtain ⟨k, v⟩ := kv
    cases es' with
    | nil =>
      have := h k
      simp [Entries.index] at this
    | cons kv' rest' =>
      obtain ⟨k', v'⟩ := kv'
      unfold Entries.Sorted at hs hs'
      simp only [List.map_cons, List.pairwise_cons] at hs hs'
      have hk : k = k' := by
        by_contra hne
        have e1 := h k
        simp only [Entries.index, if_true, if_neg hne] at e1
        have e2 := h k'
        simp only [Entries.index, if_true, if_neg (Ne.symm hne)] at e2
        have l1 := hs'.1 k (Entries.mem_keys_of_index k rest' v e1.symm)
        have l2 := hs.1 k' (Entries.mem_keys_of_index k' rest v' e2)
        exact lt_asymm l1 l2
      subst hk
      have hv : v = v' := by
        have e1 := h k
        simpa [Entries.index] using e1
      subst hv
      have ht : rest = rest' := by
        apply ih rest' hs.2 hs'.2
        intro j
        by_cases hj : j = k
        · subst hj
          rw [Entries.index_eq_none j rest (fun hm => lt_irrefl _ (hs.1 j hm)),
            Entries.index_eq_none j rest' (fun hm => lt_irrefl _ (hs'.1 j hm))]
        · have e := h j
          simpa [Entries.index, hj] using e
      rw [ht]

theorem storeString_saved (v : JValue) (cur : String) (saved : Option JSONError) :
    (storeString v cur saved).2.isSome = (saved.isSome || !v.isStringOrNull) := by
  cases saved <;> cases v <;> rfl

theorem decodeReqDataMember_saved (st : ReqData × Option JSONError) (kv : String × JValue) :
    (decodeReqDataMember st kv).2.isSome =
      (st.2.isSome ||
        ((matchField "code" kv.1 || matchField "message" kv.1) && !kv.2.isStringOrNull)) := by
  unfold decodeReqDataMember
  by_cases h1 : matchField "code" kv.1 = true
  · simp [h1, storeString_saved]
  · by_cases h2 : matchField "message" kv.1 = true
    · simp [h1, h2, storeString_saved]
    · simp [h1, h2]

theorem decodeReqData_foldl_saved (members : List (String × JValue))
    (st : ReqData × Option JSONError) :
    (members.foldl decodeReqDataMember st).2.isSome =
      (st.2.isSome || members.any fun kv =>
        (matchField "code" kv.1 || matchField "message" kv.1) && !kv.2.isStringOrNull) := by
  induction members generalizing st with
  | nil => simp
  | cons kv rest ih =>
    rw [List.foldl_cons, ih, decodeReqDataMember_saved, List.any_cons, Bool.or_assoc]

theorem jsonDecodeReqData_document (v : JValue) :
    (∃ e, jsonDecodeReqData (.document v) = .error e) ↔ (decodeReqData v).2.isSome = true := by
  unfold jsonDecodeReqData
  simp only
  rcases decodeReqData v with ⟨d, _ | e⟩ <;> simp

theorem jsonDecodeReqData_error_iff (body : Bytes) :
    (∃ e, jsonDecodeReqData body = .error e) ↔ malformedBody body = true := by
  cases body with
  | malformed e => simp [jsonDecodeReqData, malformedBody]
  | document v =>
    rw [jsonDecodeReqData_document]
    cases v with
    | object members =>
      simp only [decodeReqData, malformedBody, decodeReqData_foldl_saved]
      simp
    | _ => simp [decodeReqData, malformedBody]

theorem decodeWebhookDataMember_saved (st : WebhookData × Option JSONError)
    (kv : String × JValue) :
    (decodeWebhookDataMember st kv).2.isSome =
      (st.2.isSome || !(!matchField "webhooks_url" kv.1 || kv.2.isStringOrNull)) := by
  unfold decodeWebhookDataMember
  by_cases h1 : matchField "webhooks_url" kv.1 = true
  · simp [h1, storeString_saved]
  · simp [h1]

theorem decodeWebhookData_foldl_saved (fields : List (String × JValue))
    (st : WebhookData × Option JSONError) :
    (fields.foldl decodeWebhookDataMember st).2.isSome =
      (st.2.isSome ||
        !fields.all fun f => !matchField "webhooks_url" f.1 || f.2.isStringOrNull) := by
  induction fields generalizing st with
  | nil => simp
  | cons kv rest ih =>
    rw [List.foldl_cons, ih, decodeWebhookDataMember_saved, List.all_cons, Bool.not_and,
      Bool.or_assoc]

theorem decodeWebhookData_saved (v : JValue) (saved : Option JSONError) :
    (decodeWebhookData v saved).2.isSome = (saved.isSome || !acceptedElement v) := by
  cases v with
  | object fields => simp only [decodeWebhookData, acceptedElement, decodeWebhookData_foldl_saved]
  | _ => cases saved <;> rfl

theorem decodeWebhookMap_foldl_saved (members : List (String × JValue))
    (st : Entries × Option JSONError) :
    (members.foldl decodeWebhookMapMember st).2.isSome =
      (st.2.isSome || !members.all fun kv => acceptedElement kv.2) := by
  induction members generalizing st with
  | nil => simp
  | cons kv rest ih =>
    rw [List.foldl_cons, ih]
    simp only [decodeWebhookMapMember, decodeWebhookData_saved, List.all_cons, Bool.not_and,
      Bool.or_assoc]

theorem decodeWebhookMap_saved (v : JValue) :
    (decodeWebhookMap v).2.isSome = !acceptedMapping v := by
  cases v with
  | object members =>
    simp only [decodeWebhookMap, acceptedMapping, decodeWebhookMap_foldl_saved]
    simp
  | _ => rfl

theorem jsonUnmarshalWebhookMap_document (v : JValue) :
    (acceptedMapping v = true → ∃ m, jsonUnmarshalWebhookMap (.document v) = .ok m) ∧
    (acceptedMapping v = false → ∃ e, jsonUnmarshalWebhookMap (.document v) = .error e) := by
  have h := decodeWebhookMap_saved v
  unfold jsonUnmarshalWebhookMap
  simp only
  rcases hd : decodeWebhookMap v with ⟨m, _ | e⟩
  · rw [hd] at h
    simp at h
    simp [h]
  · rw [hd] at h
    simp at h
    simp [h]

theorem loadWebhookMap_document (w : World) (p : String) (v : JValue)
    (h : w.readFile p = .ok (.document v)) :
    (acceptedMapping v = true → ∃ m, (loadWebhookMap w p).1 = .ok m) ∧
    (acceptedMapping v = false → ∃ e, (loadWebhookMap w p).1 = .error (.unmarshal e)) := by
  unfold loadWebhookMap
  rw [h]
  simp only
  constructor
  · intro ha
    obtain ⟨m, hm⟩ := (jsonUnmarshalWebhookMap_document v).1 ha
    exact ⟨m, by rw [hm]⟩
  · intro ha
    obtain ⟨e, he⟩ := (jsonUnmarshalWebhookMap_document v).2 ha
    exact ⟨e, by rw [he]⟩

theorem storeString_value (v : JValue) (cur : String) (saved : Option JSONError) :
    (storeString v cur saved).1 = match v with
      | .string s => s
      | _ => cur := by
  cases v <;> rfl

theorem lastURL_cons (kv : String × JValue) (rest : List (String × JValue)) :
    lastURL (kv :: rest) = match lastURL rest with
      | some s => some s
      | none => memberURL kv := rfl

theorem lastEntry_cons (code : String) (kv : String × JValue) (rest : List (String × JValue)) :
    lastEntry code (kv :: rest) = match lastEntry code rest with
      | some x => some x
      | none => if code = kv.1 then some kv.2 else none := rfl

theorem decodeWebhookDataMember_url (st : WebhookData × Option JSONError)
    (kv : String × JValue) :
    (decodeWebhookDataMember st kv).1.WebhooksURL = (memberURL kv).getD st.1.WebhooksURL := by
  unfold decodeWebhookDataMember memberURL
  by_cases hk : matchField "webhooks_url" kv.1 = true
  · simp only [hk, if_true, storeString_value]
    cases kv.2 <;> rfl
  · simp only [hk, if_false]
    rfl

theorem decodeWebhookData_foldl_url (fields : List (String × JValue))
    (st : WebhookData × Option JSONError) :
    (fields.foldl decodeWebhookDataMember st).1.WebhooksURL
      = (lastURL fields).getD st.1.WebhooksURL := by
  induction fields generalizing st with
  | nil => rfl
  | cons kv rest ih =>
    rw [List.foldl_cons, ih, lastURL_cons]
    cases lastURL rest with
    | some s => rfl
    | none => exact decodeWebhookDataMember_url st kv

theorem decodeWebhookData_value (v : JValue) (saved : Option JSONError) :
    (decodeWebhookData v saved).1 = { WebhooksURL := entryURL v } := by
  cases v with
  | object fields =>
    have h := decodeWebhookData_foldl_url fields ({ WebhooksURL := "" }, saved)
    simp only [decodeWebhookData, entryURL]
    rcases hf : fields.foldl decodeWebhookDataMember ({ WebhooksURL := "" }, saved)
      with ⟨⟨u⟩, e⟩
    rw [hf] at h
    simp only at h
    rw [h]
  | _ => rfl

theorem decodeWebhookMap_foldl_index (members : List (String × JValue))
    (st : Entries × Option JSONError) (code : String) :
    (members.foldl decodeWebhookMapMember st).1.index code =
      match lastEntry code members with
      | some x => some { WebhooksURL := entryURL x }
      | none => st.1.index code := by
  induction members generalizing st with
  | nil => rfl
  | cons kv rest ih =>
    rw [List.foldl_cons, ih, lastEntry_cons]
    cases lastEntry code rest with
    | some x => rfl
    | none =>
      simp only [decodeWebhookMapMember, Entries.index_assign, decodeWebhookData_value]
      by_cases hc : code = kv.1
      · simp only [hc, if_true]
      · simp only [hc, if_false]

theorem jsonUnmarshalWebhookMap_object (members : List (String × JValue))
    (ha : acceptedMapping (.object members) = true) :
    jsonUnmarshalWebhookMap (.document (.object members))
      = .ok (some (members.foldl decodeWebhookMapMember ([], none)).1) := by
  have h := decodeWebhookMap_saved (.object members)
  rw [ha] at h
  unfold jsonUnmarshalWebhookMap
  simp only [decodeWebhookMap] at h ⊢
  rcases hf : members.foldl decodeWebhookMapMember ([], none) with ⟨es, _ | e⟩
  · rfl
  · rw [hf] at h
    simp at h

theorem loadWebhookMap_object (w : World) (p : String) (members : List (String × JValue))
    (h : w.readFile p = .ok (.document (.object members)))
    (ha : acceptedMapping (.object members) = true) :
    ∃ es, (loadWebhookMap w p).1 = .ok (some es) ∧ es.Sorted ∧
      ∀ code, es.index code
        = (lastEntry code members).map fun x => { WebhooksURL := entryURL x } := by
  have hl : (loadWebhookMap w p).1
      = .ok (some (members.foldl decodeWebhookMapMember ([], none)).1) := by
    unfold loadWebhookMap
    rw [h]
    simp only [jsonUnmarshalWebhookMap_object members ha]
  refine ⟨_, hl, loadWebhookMap_sorted w p _ hl, fun code => ?_⟩
  rw [decodeWebhookMap_foldl_index]
  cases lastEntry code members <;> rfl

theorem loadWebhookMap_null (w : World) (p : String)
    (h : w.readFile p = .ok (.document .null)) :
    (loadWebhookMap w p).1 = .ok none := by
  unfold loadWebhookMap
  rw [h]
  rfl

theorem lastURL_eq_none (fields : List (String × JValue))
    (h : ∀ f ∈ fields, matchField "webhooks_url" f.1 = false) : lastURL fields = none := by
  induction fields with
  | nil => rfl
  | cons kv rest ih =>
    rw [lastURL_cons, ih (fun f hf => h f (List.mem_cons_of_mem _ hf))]
    simp only [memberURL, h kv (List.mem_cons_self _ _), Bool.false_eq_true, if_false]

theorem entryURL_single (u : String) :
    entryURL (.object [("webhooks_url", .string u)]) = u := by
  have h : matchField "webhooks_url" "webhooks_url" = true := by decide
  simp [entryURL, lastURL, memberURL, h]

theorem decodeReqData_foldl_code (members : List (String × JValue))
    (h : ∀ kv ∈ members, matchField "code" kv.1 = false)
    (st : ReqData × Option JSONError) :
    (members.foldl decodeReqDataMember st).1.Code = st.1.Code := by
  induction members generalizing st with
  | nil => rfl
  | cons kv rest ih =>
    rw [List.foldl_cons, ih (fun x hx => h x (List.mem_cons_of_mem _ hx))]
    unfold decodeReqDataMember
    rw [h kv (List.mem_cons_self _ _)]
    simp only [Bool.false_eq_true, if_false]
    split <;> rfl

theorem jsonDecodeReqData_code_omitted (members : List (String × JValue))
    (h : ∀ kv ∈ members, matchField "code" kv.1 = false) (d : ReqData)
    (hd : jsonDecodeReqData (.document (.object members)) = .ok d) : d.Code = "" := by
  have hc := decodeReqData_foldl_code members h ({ Code := "", Message := "" }, none)
  unfold jsonDecodeReqData at hd
  simp only [decodeReqData] at hd
  rcases hf : members.foldl decodeReqDataMember ({ Code := "", Message := "" }, none)
    with ⟨d', _ | e⟩
  · rw [hf] at hd hc
    simp only [Except.ok.injEq] at hd
    rw [← hd]
    exact hc
  · rw [hf] at hd
    cases hd

/-- A body `{"code": code, "message": message}` decodes to its two fields. -/
theorem jsonDecodeReqData_postOf (code message : String) :
    jsonDecodeReqData (postOf code message).Body = .ok { Code := code, Message := message } := by
  have h1 : matchField "code" "code" = true := by decide
  have h2 : matchField "code" "message" = false := by decide
  have h3 : matchField "message" "message" = true := by decide
  simp [jsonDecodeReqData, postOf, decodeReqData, decodeReqDataMember, storeString, h1, h2, h3]

theorem loadWebhookMap_congr (w w' : World) (p : String)
    (h : w'.readFile p = w.readFile p) : loadWebhookMap w' p = loadWebhookMap w p := by
  unfold loadWebhookMap
  rw [h]

theorem handleRequest_get_congr (w w' : World) (r : Request) (hm : r.Method = "GET")
    (h : w'.readFile "webhook_map.json" = w.readFile "webhook_map.json") :
    handleRequest w' r = handleRequest w r := by
  have hnp : r.Method ≠ "POST" := by rw [hm]; decide
  simp only [handleRequest, if_neg hnp, if_pos hm, loadWebhookMap_congr w w' _ h]

theorem handleRequest_get_ok (w : World) (r : Request) (m : WebhookMap)
    (hm : r.Method = "GET") (hl : (loadWebhookMap w "webhook_map.json").1 = .ok m) :
    handleRequest w r =
      ({ statusCode := 200, header := [("Content-Type", "application/json")],
         body := .json m.toJSON },
        [Effect.readFile "webhook_map.json"]) := by
  have hnp : r.Method ≠ "POST" := by rw [hm]; decide
  unfold handleRequest
  rw [if_neg hnp, if_pos hm]
  simp only [loadWebhookMap_eq w _ _ hl]
  rfl

theorem encodeEntries_injective (es es' : Entries)
    (h : es.map (fun kv => (kv.1, kv.2.toJSON)) = es'.map (fun kv => (kv.1, kv.2.toJSON))) :
    es = es' := by
  induction es generalizing es' with
  | nil =>
    cases es' with
    | nil => rfl
    | cons a b => simp at h
  | cons kv rest ih =>
    cases es' with
    | nil => simp at h
    | cons kv' rest' =>
      obtain ⟨k, ⟨u⟩⟩ := kv
      obtain ⟨k', ⟨u'⟩⟩ := kv'
      simp only [List.map_cons, List.cons.injEq, Prod.mk.injEq, WebhookData.toJSON,
        JValue.object.injEq, JValue.string.injEq, and_true, true_and] at h
      obtain ⟨⟨hk, hu⟩, ht⟩ := h
      rw [hk, hu, ih rest' ht]

theorem WebhookMap.toJSON_injective (m m' : WebhookMap) (h : m.toJSON = m'.toJSON) :
    m = m' := by
  cases m with
  | none =>
    cases m' with
    | none => rfl
    | some es' => simp [WebhookMap.toJSON] at h
  | some es =>
    cases m' with
    | none => simp [WebhookMap.toJSON] at h
    | some es' =>
      simp only [WebhookMap.toJSON, JValue.object.injEq] at h
      rw [encodeEntries_injective es es' h]



/-! ## The claims -/

/-- C1: a POST whose body decodes to `{code, message}`, with `code` a key of
the mapping that loaded, performs exactly one outbound delivery: to the
`webhooks_url` stored under `code`, as `application/json`, with the envelope
`{"content": message}` (the message unchanged, empty or not). -/
theorem handleRequest_post_delivers_once (w : World) (r : Request) (m : WebhookMap)
    (code message : String) (data : WebhookData)
    (hm : r.Method = "POST")
    (hb : jsonDecodeReqData r.Body = .ok { Code := code, Message := message })
    (hl : (loadWebhookMap w "webhook_map.json").1 = .ok m)
    (hk : m.index code = some data) :
    deliveries (handleRequest w r).2 =
      [(data.WebhooksURL, "application/json", .object [("content", .string message)])] := by
  rw [handleRequest_post w r _ m hm hb hl]
  simp only [hk]
  split <;> rfl

/-- C1 at the mapping `{"team-a": {"webhooks_url": "https://hooks.example/abc"}}` and the POST
`{"code": "team-a", "message": ""}`: one delivery, with the empty message. -/
theorem handleRequest_post_delivers_once_witness :
    deliveries (handleRequest (worldOf (.ok teamFile) (.ok 204)) (postOf "team-a" "")).2 =
      [("https://hooks.example/abc", "application/json", .object [("content", .string "")])] :=
  handleRequest_post_delivers_once (worldOf (.ok teamFile) (.ok 204)) (postOf "team-a" "")
    (some [("team-a", { WebhooksURL := "https://hooks.example/abc" })]) "team-a" ""
    { WebhooksURL := "https://hooks.example/abc" } rfl rfl rfl rfl

/-- C2: a POST whose decoded code is not a key of the mapping that loaded is
answered 400 `Invalid code` and performs no outbound delivery. -/
theorem handleRequest_post_unknown_code (w : World) (r : Request) (m : WebhookMap)
    (reqData : ReqData)
    (hm : r.Method = "POST")
    (hb : jsonDecodeReqData r.Body = .ok reqData)
    (hl : (loadWebhookMap w "webhook_map.json").1 = .ok m)
    (hk : m.index reqData.Code = none) :
    (handleRequest w r).1.statusCode = 400 ∧
    (handleRequest w r).1.body = .line "Invalid code" ∧
    deliveries (handleRequest w r).2 = [] := by
  rw [handleRequest_post w r _ m hm hb hl]
  simp only [hk]
  exact ⟨rfl, rfl, rfl⟩

/-- C2 at the same mapping and the POST `{"code": "team-b", "message": "hi"}`. -/
theorem handleRequest_post_unknown_code_witness :
    (handleRequest (worldOf (.ok teamFile) (.ok 204)) (postOf "team-b" "hi")).1.statusCode = 400 ∧
    (handleRequest (worldOf (.ok teamFile) (.ok 204)) (postOf "team-b" "hi")).1.body
      = .line "Invalid code" ∧
    deliveries (handleRequest (worldOf (.ok teamFile) (.ok 204)) (postOf "team-b" "hi")).2 = [] :=
  handleRequest_post_unknown_code (worldOf (.ok teamFile) (.ok 204)) (postOf "team-b" "hi")
    (some [("team-a", { WebhooksURL := "https://hooks.example/abc" })])
    { Code := "team-b", Message := "hi" } rfl rfl rfl rfl

/-- C3: `sendToDiscord` returns no error exactly when the outbound POST
(of the envelope `{"content": message}`, as `application/json`) completes
without a transport error with status 200 or 204; for any other status `s`
the error is `failed to send message, status code: s`, and for a transport
failure it is `failed to send message to Discord: ` followed by the
transport error's message. -/
theorem sendToDiscord_result (w : World) (webhookURL message : String) :
    ((sendToDiscord w webhookURL message).1 = .ok () ↔
      ∃ s, w.httpPost webhookURL "application/json" (.object [("content", .string message)])
            = .ok s ∧ (s = 200 ∨ s = 204)) ∧
    (∀ s, w.httpPost webhookURL "application/json" (.object [("content", .string message)])
            = .ok s → s ≠ 200 → s ≠ 204 →
      (sendToDiscord w webhookURL message).1
        = .error ("failed to send message, status code: " ++ toString s)) ∧
    (∀ e, w.httpPost webhookURL "application/json" (.object [("content", .string message)])
            = .error e →
      (sendToDiscord w webhookURL message).1
        = .error ("failed to send message to Discord: " ++ e)) := by
  refine ⟨⟨fun h => ?_, fun ⟨s, hs, h2⟩ => sendToDiscord_ok w _ _ s hs h2⟩,
    fun s hs h200 h204 => sendToDiscord_status w _ _ s hs h200 h204,
    fun e he => sendToDiscord_transport w _ _ e he⟩
  cases hp : w.httpPost webhookURL "application/json" (.object [("content", .string message)]) with
  | error e =>
    rw [sendToDiscord_transport w _ _ e hp] at h
    cases h
  | ok s =>
    by_cases h200 : s = 200
    · exact ⟨s, rfl, Or.inl h200⟩
    · by_cases h204 : s = 204
      · exact ⟨s, rfl, Or.inr h204⟩
      · rw [sendToDiscord_status w _ _ s hp h200 h204] at h
        cases h

/-- C3 at a remote that answers 404. -/
theorem sendToDiscord_result_witness :
    (sendToDiscord (worldOf (.ok teamFile) (.ok 404)) "https://hooks.example/abc" "hello").1
      = .error "failed to send message, status code: 404" :=
  (sendToDiscord_result (worldOf (.ok teamFile) (.ok 404)) "https://hooks.example/abc" "hello").2.1
    404 rfl (by decide) (by decide)

/-- C4: for a POST with a well-formed body whose code is in the loaded
mapping, a remote status of 200 or 204 gives the response 200
`Message sent successfully`; any other remote status `s` gives the response
500 whose body is the error text of `sendToDiscord`,
`failed to send message, status code: s`. -/
theorem handleRequest_post_remote_status (w : World) (r : Request) (m : WebhookMap)
    (reqData : ReqData) (data : WebhookData) (s : Nat)
    (hm : r.Method = "POST")
    (hb : jsonDecodeReqData r.Body = .ok reqData)
    (hl : (loadWebhookMap w "webhook_map.json").1 = .ok m)
    (hk : m.index reqData.Code = some data)
    (hs : w.httpPost data.WebhooksURL "application/json"
            (.object [("content", .string reqData.Message)]) = .ok s) :
    ((s = 200 ∨ s = 204) →
      (handleRequest w r).1.statusCode = 200 ∧
      (handleRequest w r).1.body = .line "Message sent successfully") ∧
    (s ≠ 200 → s ≠ 204 →
      (handleRequest w r).1.statusCode = 500 ∧
      (handleRequest w r).1.body
        = .line ("failed to send message, status code: " ++ toString s) ∧
      (sendToDiscord w data.WebhooksURL reqData.Message).1
        = .error ("failed to send message, status code: " ++ toString s)) := by
  rw [handleRequest_post w r _ m hm hb hl]
  simp only [hk]
  constructor
  · intro h
    rw [sendToDiscord_ok w _ _ s hs h]
    exact ⟨rfl, rfl⟩
  · intro h200 h204
    rw [sendToDiscord_status w _ _ s hs h200 h204]
    exact ⟨rfl, rfl, rfl⟩

/-- C4 at the POST `{"code": "team-a", "message": "hello"}` and a remote that answers 404. -/
theorem handleRequest_post_remote_status_witness :
    (handleRequest (worldOf (.ok teamFile) (.ok 404)) (postOf "team-a" "hello")).1.statusCode = 500 ∧
    (handleRequest (worldOf (.ok teamFile) (.ok 404)) (postOf "team-a" "hello")).1.body
      = .line "failed to send message, status code: 404" ∧
    (sendToDiscord (worldOf (.ok teamFile) (.ok 404)) "https://hooks.example/abc" "hello").1
      = .error "failed to send message, status code: 404" :=
  (handleRequest_post_remote_status (worldOf (.ok teamFile) (.ok 404)) (postOf "team-a" "hello")
    (some [("team-a", { WebhooksURL := "https://hooks.example/abc" })])
    { Code := "team-a", Message := "hello" } { WebhooksURL := "https://hooks.example/abc" } 404
    rfl rfl rfl rfl rfl).2 (by decide) (by decide)

/-- C5: a POST whose body is not decodable as `{code: string, message: string}`
(invalid JSON syntax, a value of the wrong type, a wrongly typed `code` or
`message`) is answered 400 `Invalid request body` with no effect at all:
nothing is delivered and the mapping file is not read, whatever the world. -/
theorem handleRequest_post_invalid_body (w : World) (r : Request)
    (hm : r.Method = "POST") :
    ((∃ e, jsonDecodeReqData r.Body = .error e) ↔ malformedBody r.Body = true) ∧
    ((∃ e, jsonDecodeReqData r.Body = .error e) →
      (handleRequest w r).1.statusCode = 400 ∧
      (handleRequest w r).1.body = .line "Invalid request body" ∧
      (handleRequest w r).2 = []) := by
  refine ⟨jsonDecodeReqData_error_iff r.Body, ?_⟩
  rintro ⟨e, he⟩
  unfold handleRequest
  rw [if_pos hm, he]
  exact ⟨rfl, rfl, rfl⟩

/-- C5 at the POST `{"code": 123}` in a world where the mapping file does not exist. -/
theorem handleRequest_post_invalid_body_witness :
    (handleRequest (worldOf (.error "no such file or directory") (.ok 204))
      { Method := "POST", Body := .document (.object [("code", .number "123")]) }).1.statusCode
      = 400 ∧
    (handleRequest (worldOf (.error "no such file or directory") (.ok 204))
      { Method := "POST", Body := .document (.object [("code", .number "123")]) }).1.body
      = .line "Invalid request body" ∧
    (handleRequest (worldOf (.error "no such file or directory") (.ok 204))
      { Method := "POST", Body := .document (.object [("code", .number "123")]) }).2 = [] :=
  (handleRequest_post_invalid_body (worldOf (.error "no such file or directory") (.ok 204))
    { Method := "POST", Body := .document (.object [("code", .number "123")]) } rfl).2
    ⟨.unmarshalTypeError "number", rfl⟩

/-- C6: a request whose method is neither POST nor GET is answered 405
`Method not allowed` with no effect at all: the mapping file is not read and
nothing is delivered, whatever the body and the world. -/
theorem handleRequest_other_method (w : World) (r : Request)
    (hp : r.Method ≠ "POST") (hg : r.Method ≠ "GET") :
    (handleRequest w r).1.statusCode = 405 ∧
    (handleRequest w r).1.body = .line "Method not allowed" ∧
    (handleRequest w r).2 = [] := by
  unfold handleRequest
  rw [if_neg hp, if_neg hg]
  exact ⟨rfl, rfl, rfl⟩

/-- C6 at a DELETE that carries a well-formed body. -/
theorem handleRequest_other_method_witness :
    (handleRequest (worldOf (.ok teamFile) (.ok 204))
      { Method := "DELETE", Body := (postOf "team-a" "hello").Body }).1.statusCode = 405 ∧
    (handleRequest (worldOf (.ok teamFile) (.ok 204))
      { Method := "DELETE", Body := (postOf "team-a" "hello").Body }).1.body
      = .line "Method not allowed" ∧
    (handleRequest (worldOf (.ok teamFile) (.ok 204))
      { Method := "DELETE", Body := (postOf "team-a" "hello").Body }).2 = [] :=
  handleRequest_other_method (worldOf (.ok teamFile) (.ok 204))
    { Method := "DELETE", Body := (postOf "team-a" "hello").Body } (by decide) (by decide)

/-- C7 (as the code has it): when the mapping file loads, a GET is answered
200 with `Content-Type: application/json` and the JSON encoding of the loaded
mapping: `null` for the nil map, else one member per code, in key order, each
an object with the single member `webhooks_url`. The response is determined
by what the file reads as at this request, and two GETs have the same body
exactly when their files load to mappings that are both nil or both not and
send every code to the same entry. -/
theorem handleRequest_get_encodes_mapping (w : World) (r : Request) (m : WebhookMap)
    (hm : r.Method = "GET")
    (hl : (loadWebhookMap w "webhook_map.json").1 = .ok m) :
    (handleRequest w r).1.statusCode = 200 ∧
    (handleRequest w r).1.header = [("Content-Type", "application/json")] ∧
    (handleRequest w r).1.body = .json m.toJSON ∧
    (∀ w' : World, w'.readFile "webhook_map.json" = w.readFile "webhook_map.json" →
      (handleRequest w' r).1 = (handleRequest w r).1) ∧
    (∀ (w' : World) (m' : WebhookMap), (loadWebhookMap w' "webhook_map.json").1 = .ok m' →
      ((handleRequest w' r).1.body = (handleRequest w r).1.body ↔
        (m'.isSome = m.isSome ∧ ∀ code, m'.index code = m.index code))) := by
  refine ⟨?_, ?_, ?_, ?_, ?_⟩
  · rw [handleRequest_get_ok w r m hm hl]
  · rw [handleRequest_get_ok w r m hm hl]
  · rw [handleRequest_get_ok w r m hm hl]
  · intro w' h
    rw [handleRequest_get_congr w w' r hm h]
  · intro w' m' hl'
    rw [handleRequest_get_ok w r m hm hl, handleRequest_get_ok w' r m' hm hl']
    constructor
    · intro h
      simp only [Body.json.injEq] at h
      rw [WebhookMap.toJSON_injective m' m h]
      exact ⟨rfl, fun _ => rfl⟩
    · rintro ⟨hsome, hidx⟩
      have hmm : m' = m := by
        cases m with
        | none =>
          cases m' with
          | none => rfl
          | some es' => simp at hsome
        | some es =>
          cases m' with
          | none => simp at hsome
          | some es' =>
            rw [Entries.ext_of_sorted es' es (loadWebhookMap_sorted w' _ es' hl')
              (loadWebhookMap_sorted w _ es hl) hidx]
      rw [hmm]

/-- C7 at the mapping file `{"team-a": {"webhooks_url": "https://hooks.example/abc"}}`. -/
theorem handleRequest_get_encodes_mapping_witness :
    (handleRequest (worldOf (.ok teamFile) (.ok 204)) getRequest).1.body =
      .json (.object [("team-a", .object [("webhooks_url", .string "https://hooks.example/abc")])]) :=
  (handleRequest_get_encodes_mapping (worldOf (.ok teamFile) (.ok 204)) getRequest
    (some [("team-a", { WebhooksURL := "https://hooks.example/abc" })]) rfl rfl).2.2.1

/-- C7 fails as stated: the file contents `{"team-a": {}}` and
`{"team-a": {"webhooks_url": ""}}` differ and both load; a GET over either is
answered with the body `{"team-a": {"webhooks_url": ""}}`, which is not the
first file's content, and the two bodies do not differ. -/
theorem handleRequest_get_not_verbatim :
    bareEntry ≠ emptyURLEntry ∧
    (handleRequest (worldOf (.ok (.document bareEntry)) (.ok 204)) getRequest).1.statusCode
      = 200 ∧
    (handleRequest (worldOf (.ok (.document bareEntry)) (.ok 204)) getRequest).1.body
      = .json emptyURLEntry ∧
    (handleRequest (worldOf (.ok (.document emptyURLEntry)) (.ok 204)) getRequest).1.body
      = .json emptyURLEntry := by
  refine ⟨?_, rfl, rfl, rfl⟩
  simp [bareEntry, emptyURLEntry]

/-- C8 (as the code has it): `loadWebhookMap` fails with the read error when
the path cannot be read and with a parse error when the content is not
well-formed JSON or is not accepted by the typed decoder; it returns a
mapping exactly for well-formed content that is `null` or an object whose
values are `null` or objects in which every `webhooks_url` member is a string
or `null`. The mapping returned is the nil map for `null`; for an object it
is the map, in key order, that sends each code to the URL of the last member
under that code and holds no other code, where an entry that is `null` or
gives no `webhooks_url` has the empty URL and an entry
`{"webhooks_url": u}` has the URL `u`. -/
theorem loadWebhookMap_result (w : World) (filePath : String) :
    (∀ e, w.readFile filePath = .error e →
      (loadWebhookMap w filePath).1 = .error (.read e)) ∧
    (∀ e, w.readFile filePath = .ok (.malformed e) →
      (loadWebhookMap w filePath).1 = .error (.unmarshal (.syntaxError e))) ∧
    (∀ v, w.readFile filePath = .ok (.document v) → acceptedMapping v = false →
      ∃ e, (loadWebhookMap w filePath).1 = .error (.unmarshal e)) ∧
    (∀ v, w.readFile filePath = .ok (.document v) → acceptedMapping v = true →
      ∃ m, (loadWebhookMap w filePath).1 = .ok m) ∧
    (∀ m, (loadWebhookMap w filePath).1 = .ok m →
      ∃ v, w.readFile filePath = .ok (.document v) ∧ acceptedMapping v = true) ∧
    (w.readFile filePath = .ok (.document .null) →
      (loadWebhookMap w filePath).1 = .ok none) ∧
    (∀ members, w.readFile filePath = .ok (.document (.object members)) →
      acceptedMapping (.object members) = true →
      ∃ es, (loadWebhookMap w filePath).1 = .ok (some es) ∧ es.Sorted ∧
        ∀ code, es.index code
          = (lastEntry code members).map fun x => { WebhooksURL := entryURL x }) ∧
    entryURL .null = "" ∧
    (∀ fields : List (String × JValue),
      (∀ f ∈ fields, matchField "webhooks_url" f.1 = false) →
        entryURL (.object fields) = "") ∧
    (∀ u, entryURL (.object [("webhooks_url", .string u)]) = u) := by
  refine ⟨fun e he => ?_, fun e he => ?_, fun v hv ha => (loadWebhookMap_document w _ v hv).2 ha,
    fun v hv ha => (loadWebhookMap_document w _ v hv).1 ha, fun m hm => ?_,
    loadWebhookMap_null w _, fun members hm ha => loadWebhookMap_object w _ members hm ha,
    rfl, fun fields hf => ?_, entryURL_single⟩
  · unfold loadWebhookMap
    rw [he]
  · unfold loadWebhookMap
    rw [he]
    rfl
  · cases hr : w.readFile filePath with
    | error e =>
      unfold loadWebhookMap at hm
      rw [hr] at hm
      cases hm
    | ok c =>
      cases c with
      | malformed e =>
        unfold loadWebhookMap at hm
        rw [hr] at hm
        cases hm
      | document v =>
        refine ⟨v, rfl, ?_⟩
        cases ha : acceptedMapping v with
        | true => rfl
        | false =>
          obtain ⟨e, he⟩ := (loadWebhookMap_document w _ v hr).2 ha
          rw [he] at hm
          cases hm
  · simp only [entryURL, lastURL_eq_none fields hf, Option.getD_none]

/-- C8 at the mapping file
`{"team-a": {"webhooks_url": "https://hooks.example/abc"}, "team-b": null, "team-c": {}}`:
it loads, the map returned sends each code to what `lastEntry` and `entryURL`
read off the file, and it is the map with the given URL under `team-a` and
the empty URL under `team-b` and `team-c`. -/
theorem loadWebhookMap_result_witness :
    (∃ es, (loadWebhookMap (worldOf (.ok threeEntryFile) (.ok 204)) "webhook_map.json").1
        = .ok (some es) ∧ es.Sorted ∧
      ∀ code, es.index code
        = (lastEntry code threeEntries).map fun x => { WebhooksURL := entryURL x }) ∧
    (loadWebhookMap (worldOf (.ok threeEntryFile) (.ok 204)) "webhook_map.json").1
      = .ok (some [("team-a", { WebhooksURL := "https://hooks.example/abc" }),
          ("team-b", { WebhooksURL := "" }), ("team-c", { WebhooksURL := "" })]) := by
  refine ⟨(loadWebhookMap_result (worldOf (.ok threeEntryFile) (.ok 204))
    "webhook_map.json").2.2.2.2.2.2.1 threeEntries rfl rfl, ?_⟩
  have h1 : ¬ ("team-b" : String) < "team-a" := by rw [String.lt_iff_toList_lt]; decide
  have h2 : ¬ ("team-c" : String) < "team-a" := by rw [String.lt_iff_toList_lt]; decide
  have h3 : ¬ ("team-c" : String) < "team-b" := by rw [String.lt_iff_toList_lt]; decide
  have hm : matchField "webhooks_url" "webhooks_url" = true := by decide
  simp [loadWebhookMap, worldOf, threeEntryFile, threeEntries, jsonUnmarshalWebhookMap,
    decodeWebhookMap, decodeWebhookMapMember, decodeWebhookData, decodeWebhookDataMember,
    storeString, Entries.assign, h1, h2, h3, hm]

/-- C8 fails as stated: the contents `null` and `{"team-a": {}}` are not of
the expected shape (an object whose values are objects with a string
`webhooks_url` field), and `loadWebhookMap` returns a mapping for both: the
nil map, and a map with the empty URL under `team-a`. -/
theorem loadWebhookMap_accepts_other_shapes :
    expectedShape .null = false ∧
    (loadWebhookMap (worldOf (.ok (.document .null)) (.ok 204)) "webhook_map.json").1
      = .ok none ∧
    expectedShape (.object [("team-a", .object [])]) = false ∧
    (loadWebhookMap (worldOf (.ok (.document (.object [("team-a", .object [])]))) (.ok 204))
      "webhook_map.json").1 = .ok (some [("team-a", { WebhooksURL := "" })]) :=
  ⟨rfl, rfl, rfl, rfl⟩

/-- C9 (as the code has it): the empty code is looked up like any other. When
the loaded mapping has no entry under the empty string, a POST whose decoded
code is empty is answered 400 `Invalid code` and nothing is delivered; and a
body that is an object with no `code` member, such as `{}`, decodes to the
empty code. -/
theorem handleRequest_post_empty_code (w : World) (r : Request) (m : WebhookMap)
    (reqData : ReqData)
    (hm : r.Method = "POST")
    (hb : jsonDecodeReqData r.Body = .ok reqData)
    (hc : reqData.Code = "")
    (hl : (loadWebhookMap w "webhook_map.json").1 = .ok m)
    (hk : m.index "" = none) :
    ((handleRequest w r).1.statusCode = 400 ∧
      (handleRequest w r).1.body = .line "Invalid code" ∧
      deliveries (handleRequest w r).2 = []) ∧
    (∀ members : List (String × JValue), (∀ kv ∈ members, matchField "code" kv.1 = false) →
      ∀ d, jsonDecodeReqData (.document (.object members)) = .ok d → d.Code = "") := by
  refine ⟨?_, jsonDecodeReqData_code_omitted⟩
  rw [handleRequest_post w r _ m hm hb hl, hc]
  simp only [hk]
  exact ⟨rfl, rfl, rfl⟩

/-- C9 at the POST `{}` and a mapping whose only code is `team-a`. -/
theorem handleRequest_post_empty_code_witness :
    (handleRequest (worldOf (.ok teamFile) (.ok 204)) postEmptyObject).1.statusCode = 400 ∧
    (handleRequest (worldOf (.ok teamFile) (.ok 204)) postEmptyObject).1.body
      = .line "Invalid code" ∧
    deliveries (handleRequest (worldOf (.ok teamFile) (.ok 204)) postEmptyObject).2 = [] :=
  (handleRequest_post_empty_code (worldOf (.ok teamFile) (.ok 204)) postEmptyObject
    (some [("team-a", { WebhooksURL := "https://hooks.example/abc" })])
    { Code := "", Message := "" } rfl rfl rfl rfl rfl).1

/-- C9 fails as stated: with the mapping file
`{"": {"webhooks_url": "https://hooks.example/abc"}}`, which loads, the body
`{}` decodes to the empty code, the empty code matches the entry, and the
POST is answered 200 after one delivery to that URL. -/
theorem handleRequest_post_empty_code_matches :
    (loadWebhookMap (worldOf (.ok emptyCodeFile) (.ok 204)) "webhook_map.json").1
      = .ok (some [("", { WebhooksURL := "https://hooks.example/abc" })]) ∧
    jsonDecodeReqData postEmptyObject.Body = .ok { Code := "", Message := "" } ∧
    (handleRequest (worldOf (.ok emptyCodeFile) (.ok 204)) postEmptyObject).1.statusCode = 200 ∧
    (handleRequest (worldOf (.ok emptyCodeFile) (.ok 204)) postEmptyObject).1.body
      = .line "Message sent successfully" ∧
    deliveries (handleRequest (worldOf (.ok emptyCodeFile) (.ok 204)) postEmptyObject).2
      = [("https://hooks.example/abc", "application/json", .object [("content", .string "")])] :=
  ⟨rfl, rfl, rfl, rfl, rfl⟩

/-- C10: when `loadWebhookMap` fails, a GET and a POST with a decodable body
are both answered with one fixed response, 500 `Failed to load webhook map`,
the same for every load error, code and message, and nothing is delivered. -/
theorem handleRequest_load_failure (w : World) (r : Request) (err : LoadError)
    (hl : (loadWebhookMap w "webhook_map.json").1 = .error err)
    (hr : r.Method = "GET" ∨ (r.Method = "POST" ∧ ∃ d, jsonDecodeReqData r.Body = .ok d)) :
    (handleRequest w r).1 =
      { statusCode := 500
        header := [("Content-Type", "text/plain; charset=utf-8"),
          ("X-Content-Type-Options", "nosniff")]
        body := .line "Failed to load webhook map" } ∧
    deliveries (handleRequest w r).2 = [] := by
  unfold handleRequest
  rcases hr with hg | ⟨hp, d, hd⟩
  · have hnp : r.Method ≠ "POST" := by rw [hg]; decide
    rw [if_neg hnp, if_pos hg]
    simp only [loadWebhookMap_eq w _ _ hl]
    exact ⟨rfl, rfl⟩
  · rw [if_pos hp, hd]
    simp only [loadWebhookMap_eq w _ _ hl]
    exact ⟨rfl, rfl⟩

/-- C10 at a mapping file that is cut short and the POST `{"code": "team-a", "message": "hello"}`. -/
theorem handleRequest_load_failure_witness :
    (handleRequest (worldOf (.ok (.malformed "unexpected end of JSON input")) (.ok 204))
      (postOf "team-a" "hello")).1 =
      { statusCode := 500
        header := [("Content-Type", "text/plain; charset=utf-8"),
          ("X-Content-Type-Options", "nosniff")]
        body := .line "Failed to load webhook map" } ∧
    deliveries (handleRequest (worldOf (.ok (.malformed "unexpected end of JSON input")) (.ok 204))
      (postOf "team-a" "hello")).2 = [] :=
  handleRequest_load_failure (worldOf (.ok (.malformed "unexpected end of JSON input")) (.ok 204))
    (postOf "team-a" "hello") (.unmarshal (.syntaxError "unexpected end of JSON input")) rfl
    (Or.inr ⟨rfl, { Code := "team-a", Message := "hello" }, rfl⟩)

end DiscordLogs
